import Mathlib

/-
Verification of `datasets/bib_to_tfrecords.py`: a shallow embedding of the
annotation-to-TFRecord conversion pipeline (loader, encoder, driver) and
proofs of the specification's testable properties against it.

Python strings are modelled as `List Char`; Python floats as `ℚ` (annotation
coordinates are plain decimal literals, for which rational arithmetic agrees
with the source's arithmetic on every input considered here); fallible Python
code (KeyError, AttributeError, ValueError, assert) is modelled with
`Option` / `Except`.
-/

set_option autoImplicit false

namespace Bib

/- Batteries marks the arithmetic on `Rat` `@[irreducible]`, which blocks
`decide`/`rfl` evaluation of the concrete examples below; restore the
default reducibility for this development. -/
attribute [local semireducible] Rat.mul Rat.inv Rat.add Rat.sub Rat.ofScientific

/-- A Python string, modelled as its list of characters. -/
abbrev Str := List Char

/-- Coerce a Lean string literal into the `Str` model. -/
def str (s : String) : Str := s.data

/-- Parse a nonempty all-digit string into a natural number
(the core of Python `int()` / `float()` on digit sequences). -/
def parseDigits (ds : Str) : Option Nat :=
  if ds.isEmpty then none
  else if ds.all Char.isDigit then
    some (ds.foldl (fun n c => n * 10 + (c.toNat - 48)) 0)
  else none

/-- Numeric value of a (possibly empty) digit string. -/
def natVal (ds : Str) : Nat := ds.foldl (fun n c => n * 10 + (c.toNat - 48)) 0

/-- Python `int(s)` on plain decimal integer literals with an optional
sign: `none` models the `ValueError` raised on any other text. -/
def pyInt (s : Str) : Option Int :=
  match s with
  | '-' :: rest => (parseDigits rest).map (fun n => -(n : Int))
  | '+' :: rest => (parseDigits rest).map (fun n => (n : Int))
  | _ => (parseDigits s).map (fun n => (n : Int))

/-- Python `float(s)` on an unsigned decimal literal: digits with an
optional fractional part (`"600"`, `"4.5"`, `".5"`, `"5."`). -/
def parseUnsignedFloat (s : Str) : Option ℚ :=
  let ip := s.takeWhile (fun c => c != '.')
  match s.dropWhile (fun c => c != '.') with
  | [] => (parseDigits ip).map (fun n => (n : ℚ))
  | _ :: fr =>
    if ip.isEmpty && fr.isEmpty then none
    else if ip.all Char.isDigit && fr.all Char.isDigit then
      some ((natVal ip : ℚ) + (natVal fr : ℚ) / (10 : ℚ) ^ fr.length)
    else none

/-- Python `float(s)` with an optional sign; `none` models `ValueError`.
Exponent/inf/nan forms are not modelled: annotation coordinates are plain
decimal literals. -/
def pyFloat (s : Str) : Option ℚ :=
  match s with
  | '-' :: rest => (parseUnsignedFloat rest).map (fun q => -q)
  | '+' :: rest => parseUnsignedFloat rest
  | _ => parseUnsignedFloat s

/-- An `xml.etree.ElementTree` element: tag, optional text, child elements
(attributes are never consulted by the source, so they are omitted). -/
inductive Element where
  | mk (tag : Str) (text : Option Str) (children : List Element)

/-- Tag of an element. -/
def Element.tag : Element → Str
  | .mk t _ _ => t

/-- Text of an element (`None` when absent). -/
def Element.text : Element → Option Str
  | .mk _ tx _ => tx

/-- Direct children of an element. -/
def Element.children : Element → List Element
  | .mk _ _ cs => cs

/-- `element.find(tag)`: the first direct child with the given tag. -/
def find (e : Element) (t : Str) : Option Element :=
  e.children.find? (fun c => c.tag == t)

/-- `element.findall(tag)`: all direct children with the given tag, in order. -/
def findall (e : Element) (t : Str) : List Element :=
  e.children.filter (fun c => c.tag == t)

/-- Truthiness of an ElementTree `Element`: CPython defines
`Element.__bool__` as `len(self) != 0`, i.e. an element is truthy iff it
has child elements — an element holding only text is falsy. -/
def elementBool (e : Element) : Bool := !e.children.isEmpty

/-- IMAGE_SHAPE = [500, 500, 3] (line 64 of the source). -/
def IMAGE_SHAPE : List ℚ := [500, 500, 3]

/-- Python `min(a, b)` on two numbers, written with an explicit `if` so
that it evaluates by kernel reduction. -/
def pymin (a b : ℚ) : ℚ := if a ≤ b then a else b

/-- Python `max(a, b)` on two numbers. -/
def pymax (a b : ℚ) : ℚ := if b ≤ a then a else b

/-- The `if obj.find(tag): ... int(obj.find(tag).text) ... else: ... 0`
pattern of lines 100-107: the branch condition is the *truthiness* of the
found element, and the falsy/missing cases both yield 0. -/
def readFlag (obj : Element) (tag : Str) : Option Int :=
  match find obj tag with
  | some e => if elementBool e then Option.bind e.text pyInt else some 0
  | none => some 0

/-- `float(bbox.find(tag).text)` (lines 109-112): `none` models the
AttributeError / TypeError / ValueError raised when the element or its
text is missing or non-numeric. -/
def readCoord (bb : Element) (tag : Str) : Option ℚ :=
  (find bb tag).bind fun e => e.text.bind pyFloat

/-- `label.encode('ascii')` (line 98): succeeds (as the identity, since the
model keeps characters) exactly when every character is ASCII. -/
def encodeAscii (s : Str) : Option Str :=
  if s.all (fun c => c.toNat < 128) then some s else none

/-- What one iteration of the `for obj in root.findall('object')` loop
(lines 95-120) appends to the six accumulator lists. -/
structure ObjData where
  bbox : List ℚ
  label : Int
  label_text : Str
  difficult : Int
  truncated : Int
  warn : List Str
deriving DecidableEq

/-- One iteration of the object loop of `_process_image` (lines 95-120).
`tbl` models the external `BIB_LABELS` table (`datasets/bib_common.py`,
not part of this repository) as a map from label name to the integer id
`int(BIB_LABELS[label][0])`; `none` models `KeyError`. -/
def processObject (tbl : Str → Option Int) (nm : Str) (obj : Element) :
    Option ObjData :=
  (find obj (str "name")).bind fun nameEl =>
  nameEl.text.bind fun label =>
  (tbl label).bind fun labelId =>
  (encodeAscii label).bind fun labelBytes =>
  (readFlag obj (str "difficult")).bind fun dv =>
  (readFlag obj (str "truncated")).bind fun tv =>
  (find obj (str "bndbox")).bind fun bb =>
  (readCoord bb (str "ymin")).bind fun yminR =>
  (readCoord bb (str "xmin")).bind fun xminR =>
  (readCoord bb (str "ymax")).bind fun ymaxR =>
  (readCoord bb (str "xmax")).bind fun xmaxR =>
  let ymin := pymax (pymin yminR (IMAGE_SHAPE.getD 0 0)) 0
  let xmin := pymax (pymin xminR (IMAGE_SHAPE.getD 1 0)) 0
  let ymax := pymax (pymin ymaxR (IMAGE_SHAPE.getD 0 0)) 0
  let xmax := pymax (pymin xmaxR (IMAGE_SHAPE.getD 1 0)) 0
  some { bbox := [ymin / IMAGE_SHAPE.getD 0 0, xmin / IMAGE_SHAPE.getD 1 0,
                  ymax / IMAGE_SHAPE.getD 0 0, xmax / IMAGE_SHAPE.getD 1 0],
         label := labelId, label_text := labelBytes,
         difficult := dv, truncated := tv,
         warn := if ymax > 500 ∨ xmax > 500 then [nm] else [] }

/-- Monadic map over `Option`, used to model the object loop: the first
failing iteration aborts the whole call (a propagating Python exception). -/
def mapOpt {α β : Type} (f : α → Option β) : List α → Option (List β)
  | [] => some []
  | a :: as =>
    (f a).bind fun b => (mapOpt f as).bind fun bs => some (b :: bs)

/-- The six parallel outputs of `_process_image` (minus the raw image bytes,
which are read from disk and never inspected), plus the names printed by the
out-of-range warning check on lines 113-114. -/
structure PIResult where
  bboxes : List (List ℚ)
  labels : List Int
  labels_text : List Str
  difficult : List Int
  truncated : List Int
  warnings : List Str
deriving DecidableEq

/-- `_process_image` (lines 67-121), restricted to its annotation-parsing
core: the argument is the parsed XML root (`tree.getroot()`); path
resolution is modelled separately by `image_filename` / `annotation_filename`
and the image-byte read is external I/O. -/
def process_image (tbl : Str → Option Int) (nm : Str) (root : Element) :
    Option PIResult :=
  (mapOpt (processObject tbl nm) (findall root (str "object"))).bind fun objs =>
  some { bboxes := objs.map ObjData.bbox,
         labels := objs.map ObjData.label,
         labels_text := objs.map ObjData.label_text,
         difficult := objs.map ObjData.difficult,
         truncated := objs.map ObjData.truncated,
         warnings := (objs.map ObjData.warn).flatten }

/-- The single failure mode of `_convert_to_example`: the
`assert len(b) == 4` precondition on line 143. -/
inductive EncodeError where
  | assertionError
deriving DecidableEq

/-- The Example proto built by `_convert_to_example` (lines 147-162),
modelled as a record of its feature fields (the `int64_feature` /
`float_feature` / `bytes_feature` wrappers from `datasets/dataset_utils.py`
only box values and are dropped). -/
structure TFExample where
  height : ℚ
  width : ℚ
  channels : ℚ
  shape : List ℚ
  xmin : List ℚ
  xmax : List ℚ
  ymin : List ℚ
  ymax : List ℚ
  label : List Int
  label_text : List Str
  difficult : List Int
  truncated : List Int
  format : Str
  encoded : Str
deriving DecidableEq

/-- The `for b in bboxes` loop of lines 142-146: asserts `len(b) == 4`, then
`[l.append(point) for l, point in zip([xmin, ymin, xmax, ymax], b)]` appends
`b[0]` to the `xmin` list, `b[1]` to `ymin`, `b[2]` to `xmax` and `b[3]` to
`ymax`, in iteration order. Returns `(xmin, ymin, xmax, ymax)`. -/
def transpose4 : List (List ℚ) → Except EncodeError (List ℚ × List ℚ × List ℚ × List ℚ)
  | [] => .ok ([], [], [], [])
  | b :: rest =>
    match b with
    | [p0, p1, p2, p3] =>
      match transpose4 rest with
      | .ok (xs, ys, xms, yms) => .ok (p0 :: xs, p1 :: ys, p2 :: xms, p3 :: yms)
      | .error e => .error e
    | _ => .error .assertionError

/-- `_convert_to_example` (lines 124-163): transposes `bboxes` into the four
coordinate lists and assembles the Example record exactly as the feature
dictionary on lines 147-162 does. -/
def convert_to_example (image_data : Str) (labels : List Int)
    (labels_text : List Str) (bboxes : List (List ℚ))
    (difficult truncated : List Int) : Except EncodeError TFExample :=
  match transpose4 bboxes with
  | .error e => .error e
  | .ok (xminL, yminL, xmaxL, ymaxL) =>
    .ok { height := IMAGE_SHAPE.getD 0 0,
          width := IMAGE_SHAPE.getD 1 0,
          channels := IMAGE_SHAPE.getD 2 0,
          shape := IMAGE_SHAPE,
          xmin := xminL,
          xmax := xmaxL,
          ymin := yminL,
          ymax := ymaxL,
          label := labels,
          label_text := labels_text,
          difficult := difficult,
          truncated := truncated,
          format := str "JPEG",
          encoded := image_data }

/-- DIRECTORY_ANNOTATIONS = 'Annotations/' (line 62). -/
def DIRECTORY_ANNOTATIONS : Str := str "Annotations/"

/-- DIRECTORY_IMAGES = 'JPEGImages/' (line 63). -/
def DIRECTORY_IMAGES : Str := str "JPEGImages/"

/-- One step of CPython `posixpath.join`: an absolute second component
replaces the path; otherwise a `'/'` separator is inserted unless the
accumulated path is empty or already ends with `'/'`. -/
def pathJoin2 (a b : Str) : Str :=
  if b.head? = some '/' then b
  else if a = [] ∨ a.getLast? = some '/' then a ++ b
  else a ++ (str "/" ++ b)

/-- `os.path.join(a, p₁, ..., pₙ)` on POSIX. -/
def pathJoin (a : Str) (ps : List Str) : Str := ps.foldl pathJoin2 a

/-- Image path resolution of `_process_image` (lines 78-82):
`name.split('-')[0]` is the substring before the first `'-'`. -/
def image_filename (directory nm dataset : Str) : Str :=
  if dataset = str "training" then
    pathJoin directory [DIRECTORY_IMAGES, dataset,
      nm.takeWhile (fun c => c != '-'), nm ++ str ".jpg"]
  else
    pathJoin directory [DIRECTORY_IMAGES, dataset, nm ++ str ".jpg"]

/-- Annotation path resolution of `_process_image` (line 85). -/
def annotation_filename (directory nm dataset : Str) : Str :=
  pathJoin directory [DIRECTORY_ANNOTATIONS, dataset, nm ++ str ".xml"]

/-- `_get_output_filename` (lines 182-183):
`'%s/%s_%s.tfrecord' % (output_dir, name, dataset)`. -/
def get_output_filename (output_dir dataset nm : Str) : Str :=
  output_dir ++ str "/" ++ nm ++ str "_" ++ dataset ++ str ".tfrecord"

/-- The filesystem state visible to `run`: existing directories, directory
listings (`os.listdir`), and file contents keyed by path. -/
structure FileSys where
  dirs : List Str
  listings : List (Str × List Str)
  files : List (Str × Str)
deriving DecidableEq

/-- Line 202: `[fn.split('.')[0] for fn in os.listdir(path)]` — each listed
filename is cut at its first `'.'`. -/
def enumerateIdentifiers (listing : List Str) : List Str :=
  listing.map (fun fn => fn.takeWhile (fun c => c != '.'))

/-- The writer loop of lines 206-212, with the per-identifier work
(`_add_to_tfrecord`: read + parse + encode + serialize) abstracted as
`process : identifier → Option serialized-bytes`. Returns the bytes written
to the output file, the identifiers processed, and whether an exception
aborted the loop (leaving the bytes written so far in the file). -/
def writeLoop (process : Str → Option Str) : List Str → Str × List Str × Bool
  | [] => (str "", [], false)
  | idn :: rest =>
    match process idn with
    | none => (str "", [], true)
    | some bytes =>
      match writeLoop process rest with
      | (content, ids, err) => (bytes ++ content, idn :: ids, err)

/-- Outcome of a `run`: resulting filesystem, informational log lines,
identifiers processed, and whether an error aborted the run. -/
structure RunResult where
  fs : FileSys
  log : List Str
  processed : List Str
  error : Bool
deriving DecidableEq

/-- `run` (lines 186-219): create the output directory if missing, skip with
a log line if the target file already exists, else enumerate the annotation
directory and write one record per identifier. Progress printing (lines
208-210) is console output and is not modelled; a missing annotation
directory (`os.listdir` failure) is the `error` outcome. -/
def run (process : Str → Option Str) (fs : FileSys)
    (dataset_dir output_dir nm dataset : Str) : RunResult :=
  let fs1 := if output_dir ∈ fs.dirs then fs
             else { fs with dirs := fs.dirs ++ [output_dir] }
  let tf_filename := get_output_filename output_dir dataset nm
  if (fs1.files.lookup tf_filename).isSome then
    { fs := fs1,
      log := [str "Dataset files already exist. Exiting without re-creating them."],
      processed := [], error := false }
  else
    match fs1.listings.lookup (pathJoin dataset_dir [DIRECTORY_ANNOTATIONS, dataset]) with
    | none => { fs := fs1, log := [], processed := [], error := true }
    | some listing =>
      let filenames := enumerateIdentifiers listing
      match writeLoop process filenames with
      | (content, processed, err) =>
        { fs := { fs1 with files := fs1.files ++ [(tf_filename, content)] },
          log := if err then [] else [str "Finished converting the bib dataset!"],
          processed := processed, error := err }

/-- Models the spec's words for the Identifier Enumerator ("stripping each
filename's extension (filename minus extension)"): everything from the last
`'.'` onward is removed; a filename with no `'.'` is unchanged. Used only to
compare the spec's description with the source's `fn.split('.')[0]`. -/
def stripExtension (fn : Str) : Str :=
  if '.' ∈ fn then ((fn.reverse.dropWhile (fun c => c != '.')).tail).reverse
  else fn

/-- Decidable form of "every filename in the listing contains at most one
`'.'`". -/
def singleDotted (listing : List Str) : Bool :=
  listing.all (fun fn => fn.count '.' ≤ 1)

/-- Helper to build a concrete XML element from Lean string literals. -/
def mkEl (tag : String) (txt : Option String) (cs : List Element) : Element :=
  .mk tag.data (txt.map String.data) cs

/-- A concrete `bndbox` element with the given coordinate texts. -/
def bndboxEl (xminT yminT xmaxT ymaxT : String) : Element :=
  mkEl "bndbox" none
    [mkEl "xmin" (some xminT) [], mkEl "ymin" (some yminT) [],
     mkEl "xmax" (some xmaxT) [], mkEl "ymax" (some ymaxT) []]

/-- First object of the spec's end-to-end example: label "bib",
`difficult = 1` present (as a leaf element with text "1"), no `truncated`,
an in-range box. -/
def exObj1 : Element :=
  mkEl "object" none
    [mkEl "name" (some "bib") [], mkEl "difficult" (some "1") [],
     bndboxEl "100" "100" "200" "200"]

/-- Second object of the spec's end-to-end example: neither optional flag,
bndbox (xmin=10, ymin=10, xmax=600, ymax=450) — raw xmax exceeds the fixed
500 width. -/
def exObj2 : Element :=
  mkEl "object" none
    [mkEl "name" (some "bib") [], bndboxEl "10" "10" "600" "450"]

/-- The spec's end-to-end example annotation: two `object` entries. -/
def exTree : Element := mkEl "annotation" none [exObj1, exObj2]

/-- A one-entry label table standing in for `BIB_LABELS`: "bib" ↦ id 1. -/
def exTable : Str → Option Int :=
  fun s => if s = str "bib" then some 1 else none

/-- The loader's output on the example annotation `exTree`. -/
def exLoad : PIResult :=
  { bboxes := [[1/5, 1/5, 2/5, 2/5], [1/50, 1/50, 9/10, 1]],
    labels := [1, 1],
    labels_text := [str "bib", str "bib"],
    difficult := [0, 0],
    truncated := [0, 0],
    warnings := [] }

/-- The encoder's output on `exLoad` with image bytes "raw". -/
def exExample : TFExample :=
  { height := 500, width := 500, channels := 3, shape := [500, 500, 3],
    xmin := [1/5, 1/50],
    xmax := [2/5, 9/10],
    ymin := [1/5, 1/50],
    ymax := [2/5, 1],
    label := [1, 1],
    label_text := [str "bib", str "bib"],
    difficult := [0, 0],
    truncated := [0, 0],
    format := str "JPEG",
    encoded := str "raw" }

/-- The loader-then-encoder pipeline on the example annotation, as composed
by `_add_to_tfrecord` (lines 166-179). -/
def examplePipe : Option TFExample :=
  (process_image exTable (str "img1") exTree).bind fun r =>
  (convert_to_example (str "raw") r.labels r.labels_text r.bboxes
    r.difficult r.truncated).toOption

/-- A filesystem fixture in which the driver's target output file already
exists with content "OLD". -/
def exFS : FileSys :=
  { dirs := [str "out"], listings := [],
    files := [(get_output_filename (str "out") (str "training") (str "bib"),
               str "OLD")] }

/-! ## General lemmas -/

theorem pymin_eq_min (a b : ℚ) : pymin a b = min a b := (min_def a b).symm

theorem pymax_eq_max (a b : ℚ) : pymax a b = max a b := by
  unfold pymax
  rcases le_total a b with h | h
  · rcases eq_or_lt_of_le h with rfl | hlt
    · simp
    · rw [if_neg (not_le.mpr hlt), max_eq_right h]
  · rw [if_pos h, max_eq_left h]

theorem mapOpt_length {α β : Type} (f : α → Option β) :
    ∀ (l : List α) (bs : List β), mapOpt f l = some bs → bs.length = l.length := by
  intro l
  induction l with
  | nil => intro bs h; simp [mapOpt] at h; simp [← h]
  | cons a as ih =>
    intro bs h
    simp only [mapOpt, Option.bind_eq_some, Option.pure_def,
      Option.some.injEq] at h
    obtain ⟨b, _, bs', hbs', rfl⟩ := h
    simp [ih bs' hbs']

theorem mapOpt_mem {α β : Type} (f : α → Option β) :
    ∀ (l : List α) (bs : List β), mapOpt f l = some bs →
      ∀ b ∈ bs, ∃ a ∈ l, f a = some b := by
  intro l
  induction l with
  | nil => intro bs h; simp [mapOpt] at h; subst h; intro b hb; simp at hb
  | cons a as ih =>
    intro bs h
    simp only [mapOpt, Option.bind_eq_some, Option.pure_def,
      Option.some.injEq] at h
    obtain ⟨b, hb, bs', hbs', rfl⟩ := h
    intro x hx
    rcases List.mem_cons.mp hx with rfl | hx'
    · exact ⟨a, List.mem_cons_self a as, hb⟩
    · obtain ⟨a', ha', hfa'⟩ := ih bs' hbs' x hx'
      exact ⟨a', List.mem_cons_of_mem a ha', hfa'⟩

/-- Anatomy of a successful `processObject` call: the returned record is the
constructor term of lines 109-120, for some raw coordinate values and flag
values. -/
theorem processObject_shape (tbl : Str → Option Int) (nm : Str)
    (obj : Element) (o : ObjData) (h : processObject tbl nm obj = some o) :
    ∃ (y0 x0 y1 x1 : ℚ) (lid : Int) (lt : Str) (dv tv : Int),
      o = { bbox := [pymax (pymin y0 (IMAGE_SHAPE.getD 0 0)) 0 / IMAGE_SHAPE.getD 0 0,
                     pymax (pymin x0 (IMAGE_SHAPE.getD 1 0)) 0 / IMAGE_SHAPE.getD 1 0,
                     pymax (pymin y1 (IMAGE_SHAPE.getD 0 0)) 0 / IMAGE_SHAPE.getD 0 0,
                     pymax (pymin x1 (IMAGE_SHAPE.getD 1 0)) 0 / IMAGE_SHAPE.getD 1 0],
            label := lid, label_text := lt, difficult := dv, truncated := tv,
            warn := if pymax (pymin y1 (IMAGE_SHAPE.getD 0 0)) 0 > 500 ∨
                       pymax (pymin x1 (IMAGE_SHAPE.getD 1 0)) 0 > 500
                    then [nm] else [] } := by
  simp only [processObject, Option.bind_eq_some, Option.pure_def,
    Option.some.injEq] at h
  obtain ⟨nameEl, _, label, _, lid, _, lt, _, dv, _, tv, _, bb, _,
    y0, _, x0, _, y1, _, x1, _, ho⟩ := h
  exact ⟨y0, x0, y1, x1, lid, lt, dv, tv, ho.symm⟩

theorem IMAGE_SHAPE_getD_zero : IMAGE_SHAPE.getD 0 0 = 500 := rfl

theorem IMAGE_SHAPE_getD_one : IMAGE_SHAPE.getD 1 0 = 500 := rfl

/-- The clamp of lines 109-112 lands in `[0, 500]`. -/
theorem clamp_mem_Icc (v : ℚ) :
    0 ≤ pymax (pymin v 500) 0 ∧ pymax (pymin v 500) 0 ≤ 500 := by
  rw [pymax_eq_max, pymin_eq_min]
  exact ⟨le_max_right _ _,
    max_le (le_trans (min_le_right _ _) (by norm_num)) (by norm_num)⟩

/-- The warning condition of line 113 tests the *clamped* values, which never
exceed 500: no successful object parse ever emits a warning. -/
theorem processObject_warn_nil (tbl : Str → Option Int) (nm : Str)
    (obj : Element) (o : ObjData) (h : processObject tbl nm obj = some o) :
    o.warn = [] := by
  obtain ⟨y0, x0, y1, x1, lid, lt, dv, tv, rfl⟩ :=
    processObject_shape tbl nm obj o h
  simp only [IMAGE_SHAPE_getD_zero, IMAGE_SHAPE_getD_one]
  rw [if_neg]
  push_neg
  exact ⟨(clamp_mem_Icc y1).2, (clamp_mem_Icc x1).2⟩

/-- Every bounding box appended on lines 116-120 has exactly 4 entries. -/
theorem processObject_bbox_len (tbl : Str → Option Int) (nm : Str)
    (obj : Element) (o : ObjData) (h : processObject tbl nm obj = some o) :
    o.bbox.length = 4 := by
  obtain ⟨y0, x0, y1, x1, lid, lt, dv, tv, rfl⟩ :=
    processObject_shape tbl nm obj o h
  rfl

/-- Every entry of an appended bounding box is a clamped value divided by
the fixed dimension, hence lies in `[0, 1]`. -/
theorem processObject_bbox_bounds (tbl : Str → Option Int) (nm : Str)
    (obj : Element) (o : ObjData) (h : processObject tbl nm obj = some o) :
    ∀ q ∈ o.bbox, 0 ≤ q ∧ q ≤ 1 := by
  obtain ⟨y0, x0, y1, x1, lid, lt, dv, tv, rfl⟩ :=
    processObject_shape tbl nm obj o h
  simp only [IMAGE_SHAPE_getD_zero, IMAGE_SHAPE_getD_one]
  intro q hq
  have hpos : (0:ℚ) < 500 := by norm_num
  have key : ∀ v : ℚ, 0 ≤ pymax (pymin v 500) 0 / 500 ∧
      pymax (pymin v 500) 0 / 500 ≤ 1 := by
    intro v
    exact ⟨div_nonneg (clamp_mem_Icc v).1 hpos.le,
      (div_le_one hpos).mpr (clamp_mem_Icc v).2⟩
  simp only [List.mem_cons, List.not_mem_nil, or_false] at hq
  rcases hq with rfl | rfl | rfl | rfl
  · exact key y0
  · exact key x0
  · exact key y1
  · exact key x1

/-- Anatomy of a successful `_process_image` call. -/
theorem process_image_shape (tbl : Str → Option Int) (nm : Str)
    (root : Element) (r : PIResult) (h : process_image tbl nm root = some r) :
    ∃ objs, mapOpt (processObject tbl nm) (findall root (str "object")) = some objs ∧
      r = { bboxes := objs.map ObjData.bbox,
            labels := objs.map ObjData.label,
            labels_text := objs.map ObjData.label_text,
            difficult := objs.map ObjData.difficult,
            truncated := objs.map ObjData.truncated,
            warnings := (objs.map ObjData.warn).flatten } := by
  simp only [process_image, Option.bind_eq_some, Option.some.injEq] at h
  obtain ⟨objs, hobjs, hr⟩ := h
  exact ⟨objs, hobjs, hr.symm⟩

/-- The transposition of lines 142-146 produces four lists whose common
length is the number of bounding boxes. -/
theorem transpose4_lengths :
    ∀ (bs : List (List ℚ)) (xs ys xms yms : List ℚ),
      transpose4 bs = .ok (xs, ys, xms, yms) →
      xs.length = bs.length ∧ ys.length = bs.length ∧
      xms.length = bs.length ∧ yms.length = bs.length := by
  intro bs
  induction bs with
  | nil =>
    intro xs ys xms yms h
    simp only [transpose4, Except.ok.injEq, Prod.mk.injEq] at h
    obtain ⟨rfl, rfl, rfl, rfl⟩ := h
    simp
  | cons b rest ih =>
    intro xs ys xms yms h
    match b with
    | [] => simp [transpose4] at h
    | [_] => simp [transpose4] at h
    | [_, _] => simp [transpose4] at h
    | [_, _, _] => simp [transpose4] at h
    | _ :: _ :: _ :: _ :: _ :: _ => simp [transpose4] at h
    | [p0, p1, p2, p3] =>
      rcases htr : transpose4 rest with e | ⟨xs', ys', xms', yms'⟩
      · rw [transpose4, htr] at h; cases h
      · rw [transpose4, htr] at h
        simp only [Except.ok.injEq, Prod.mk.injEq] at h
        obtain ⟨rfl, rfl, rfl, rfl⟩ := h
        obtain ⟨h1, h2, h3, h4⟩ := ih xs' ys' xms' yms' htr
        simp [h1, h2, h3, h4]

/-- The assert of line 143 is the only failure: when every box has exactly
4 coordinates the transposition succeeds. -/
theorem transpose4_ok :
    ∀ (bs : List (List ℚ)), (∀ b ∈ bs, b.length = 4) →
      ∃ t, transpose4 bs = .ok t := by
  intro bs
  induction bs with
  | nil => intro _; exact ⟨([], [], [], []), rfl⟩
  | cons b rest ih =>
    intro hall
    obtain ⟨⟨xs, ys, xms, yms⟩, ht⟩ :=
      ih (fun x hx => hall x (List.mem_cons_of_mem b hx))
    have hb : b.length = 4 := hall b (List.mem_cons_self b rest)
    match b, hb with
    | [p0, p1, p2, p3], _ =>
      exact ⟨(p0 :: xs, p1 :: ys, p2 :: xms, p3 :: yms), by
        rw [transpose4, ht]⟩

/-- Anatomy of a successful `_convert_to_example` call. -/
theorem convert_to_example_ok (img : Str) (labels : List Int)
    (labels_text : List Str) (bboxes : List (List ℚ))
    (difficult truncated : List Int) (ex : TFExample)
    (h : convert_to_example img labels labels_text bboxes difficult truncated
          = .ok ex) :
    ∃ xminL yminL xmaxL ymaxL,
      transpose4 bboxes = .ok (xminL, yminL, xmaxL, ymaxL) ∧
      ex = { height := IMAGE_SHAPE.getD 0 0, width := IMAGE_SHAPE.getD 1 0,
             channels := IMAGE_SHAPE.getD 2 0, shape := IMAGE_SHAPE,
             xmin := xminL, xmax := xmaxL, ymin := yminL, ymax := ymaxL,
             label := labels, label_text := labels_text,
             difficult := difficult, truncated := truncated,
             format := str "JPEG", encoded := img } := by
  rcases htr : transpose4 bboxes with e | ⟨xminL, yminL, xmaxL, ymaxL⟩
  · rw [convert_to_example, htr] at h; cases h
  · rw [convert_to_example, htr] at h
    simp only [Except.ok.injEq] at h
    exact ⟨xminL, yminL, xmaxL, ymaxL, rfl, h.symm⟩

/-! ## Claim theorems: loader and encoder -/

/-- C1: the claim is false on the code. On the spec's two-object example
(second bndbox xmin=10, ymin=10, xmax=600, ymax=450 on the 500×500 fixed
geometry) the encoded record has `bbox_xmax[1] = 9/10` (the normalized
*ymax* 450/500), not 1.0: the encoder zips the loader's
`(ymin, xmin, ymax, xmax)` tuples into the lists named
`[xmin, ymin, xmax, ymax]` (line 145), so the clamped-then-normalized x-max
(1.0) lands in the *ymax* sequence instead. -/
theorem c1_xmax_receives_ymax :
    examplePipe = some exExample ∧
    exExample.xmax = [2/5, 9/10] ∧
    exExample.xmax.getD 1 0 ≠ 1 ∧
    exExample.ymax.getD 1 0 = 1 := by
  refine ⟨rfl, rfl, by decide, rfl⟩

/-- C2: the claim is false on the code. On the example annotation whose
first object carries a `difficult` element with text "1" (and no children)
and whose second object carries neither flag, the loader records
`difficult = [0, 0]`, not `[1, 0]`: line 100 tests the *truthiness* of the
found element, and an ElementTree element without child elements is falsy,
so the branch reading the element's text is never taken for leaf elements. -/
theorem c2_difficult_always_zero :
    process_image exTable (str "img1") exTree = some exLoad ∧
    exLoad.difficult = [0, 0] ∧
    exLoad.truncated = [0, 0] ∧
    exLoad.difficult ≠ [1, 0] := by
  refine ⟨rfl, rfl, rfl, by decide⟩

/-- C3: the claim is false on the code. The check on line 113 compares the
*clamped* coordinates (computed on lines 109-112) against 500, and a
clamped value never exceeds 500, so the warning `print(name)` is
unreachable: no successful load ever emits a warning, not even for raw
coordinates that exceed the fixed dimension. -/
theorem c3_warning_never_emitted (tbl : Str → Option Int) (nm : Str)
    (root : Element) (r : PIResult) (h : process_image tbl nm root = some r) :
    r.warnings = [] := by
  obtain ⟨objs, hobjs, rfl⟩ := process_image_shape tbl nm root r h
  rw [List.flatten_eq_nil_iff]
  intro l hl
  obtain ⟨o, ho, rfl⟩ := List.mem_map.mp hl
  obtain ⟨obj, _, hpo⟩ := mapOpt_mem _ _ _ hobjs o ho
  exact processObject_warn_nil tbl nm obj o hpo

theorem c3_warning_never_emitted_witness :
    process_image exTable (str "img1") exTree = some exLoad ∧
    exLoad.warnings = [] :=
  ⟨rfl, c3_warning_never_emitted exTable (str "img1") exTree exLoad rfl⟩

/-- C4: for every annotation whose load succeeds and encodes, all eight
parallel sequences of the encoded record have length equal to the number of
`object` elements in the annotation. -/
theorem c4_parallel_lengths (tbl : Str → Option Int) (nm : Str)
    (root : Element) (r : PIResult) (img : Str) (ex : TFExample)
    (h1 : process_image tbl nm root = some r)
    (h2 : convert_to_example img r.labels r.labels_text r.bboxes
            r.difficult r.truncated = .ok ex) :
    ex.xmin.length = (findall root (str "object")).length ∧
    ex.ymin.length = (findall root (str "object")).length ∧
    ex.xmax.length = (findall root (str "object")).length ∧
    ex.ymax.length = (findall root (str "object")).length ∧
    ex.label.length = (findall root (str "object")).length ∧
    ex.label_text.length = (findall root (str "object")).length ∧
    ex.difficult.length = (findall root (str "object")).length ∧
    ex.truncated.length = (findall root (str "object")).length := by
  obtain ⟨objs, hobjs, rfl⟩ := process_image_shape tbl nm root r h1
  obtain ⟨xs, ys, xms, yms, htr, rfl⟩ :=
    convert_to_example_ok _ _ _ _ _ _ _ h2
  have hN : objs.length = (findall root (str "object")).length :=
    mapOpt_length _ _ _ hobjs
  have hbb : (objs.map ObjData.bbox).length = objs.length :=
    List.length_map _ _
  obtain ⟨l1, l2, l3, l4⟩ := transpose4_lengths _ _ _ _ _ htr
  refine ⟨?_, ?_, ?_, ?_, ?_, ?_, ?_, ?_⟩ <;>
    simp only [l1, l2, l3, l4, hbb, List.length_map, hN]

theorem c4_parallel_lengths_witness :
    process_image exTable (str "img1") exTree = some exLoad ∧
    convert_to_example (str "raw") exLoad.labels exLoad.labels_text
      exLoad.bboxes exLoad.difficult exLoad.truncated = .ok exExample ∧
    exExample.xmin.length = (findall exTree (str "object")).length :=
  ⟨rfl, rfl,
    (c4_parallel_lengths exTable (str "img1") exTree exLoad (str "raw")
      exExample rfl rfl).1⟩

/-- C5: every normalized coordinate emitted by the loader lies in [0, 1]:
each is a raw value clamped to [0, 500] and divided by 500, however far
out of range the raw value was. -/
theorem c5_normalized_in_unit_interval (tbl : Str → Option Int) (nm : Str)
    (root : Element) (r : PIResult) (h : process_image tbl nm root = some r) :
    ∀ b ∈ r.bboxes, ∀ q ∈ b, 0 ≤ q ∧ q ≤ 1 := by
  obtain ⟨objs, hobjs, rfl⟩ := process_image_shape tbl nm root r h
  intro b hb
  obtain ⟨o, ho, rfl⟩ := List.mem_map.mp hb
  obtain ⟨obj, _, hpo⟩ := mapOpt_mem _ _ _ hobjs o ho
  exact processObject_bbox_bounds tbl nm obj o hpo

theorem c5_normalized_in_unit_interval_witness :
    process_image exTable (str "img1") exTree = some exLoad ∧
    (0 ≤ (1:ℚ) ∧ (1:ℚ) ≤ 1) :=
  ⟨rfl, c5_normalized_in_unit_interval exTable (str "img1") exTree exLoad rfl
    [1/50, 1/50, 9/10, 1] (by decide) 1 (by decide)⟩

/-- C9: the `assert len(b) == 4` on line 143 never fires on loader output:
every bounding box built on lines 116-120 is a 4-tuple, so encoding loader
output always succeeds. -/
theorem c9_assert_unreachable (tbl : Str → Option Int) (nm : Str)
    (root : Element) (r : PIResult) (img : Str)
    (h : process_image tbl nm root = some r) :
    (convert_to_example img r.labels r.labels_text r.bboxes
      r.difficult r.truncated).toOption.isSome = true := by
  obtain ⟨objs, hobjs, rfl⟩ := process_image_shape tbl nm root r h
  have hall : ∀ b ∈ objs.map ObjData.bbox, b.length = 4 := by
    intro b hb
    obtain ⟨o, ho, rfl⟩ := List.mem_map.mp hb
    obtain ⟨obj, _, hpo⟩ := mapOpt_mem _ _ _ hobjs o ho
    exact processObject_bbox_len tbl nm obj o hpo
  obtain ⟨⟨xs, ys, xms, yms⟩, htr⟩ := transpose4_ok _ hall
  rw [convert_to_example]
  rw [htr]
  rfl

theorem c9_assert_unreachable_witness :
    process_image exTable (str "img1") exTree = some exLoad ∧
    (convert_to_example (str "raw") exLoad.labels exLoad.labels_text
      exLoad.bboxes exLoad.difficult exLoad.truncated).toOption.isSome = true :=
  ⟨rfl, c9_assert_unreachable exTable (str "img1") exTree exLoad (str "raw") rfl⟩

/-! ## Claim theorems: driver -/

/-- C6: when the target output file already exists `run` logs the skip
message and returns at once: no identifier is enumerated or processed, no
error is reported, and every file's content — the existing output file's
included — is unchanged, so a second run is a no-op. -/
theorem c6_existing_output_skips (process : Str → Option Str) (fs : FileSys)
    (dataset_dir output_dir nm dataset : Str) (c : Str)
    (h : fs.files.lookup (get_output_filename output_dir dataset nm) = some c) :
    (run process fs dataset_dir output_dir nm dataset).fs.files = fs.files ∧
    (run process fs dataset_dir output_dir nm dataset).processed = [] ∧
    (run process fs dataset_dir output_dir nm dataset).log =
      [str "Dataset files already exist. Exiting without re-creating them."] ∧
    (run process fs dataset_dir output_dir nm dataset).error = false := by
  have hf : (if output_dir ∈ fs.dirs then fs
             else { fs with dirs := fs.dirs ++ [output_dir] }).files = fs.files := by
    split <;> rfl
  simp [run, hf, h]

theorem c6_existing_output_skips_witness :
    exFS.files.lookup (get_output_filename (str "out") (str "training")
      (str "bib")) = some (str "OLD") ∧
    ((run (fun _ => none) exFS (str "data") (str "out") (str "bib")
        (str "training")).fs.files = exFS.files ∧
     (run (fun _ => none) exFS (str "data") (str "out") (str "bib")
        (str "training")).processed = [] ∧
     (run (fun _ => none) exFS (str "data") (str "out") (str "bib")
        (str "training")).log =
       [str "Dataset files already exist. Exiting without re-creating them."] ∧
     (run (fun _ => none) exFS (str "data") (str "out") (str "bib")
        (str "training")).error = false) :=
  ⟨rfl, c6_existing_output_skips (fun _ => none) exFS (str "data") (str "out")
    (str "bib") (str "training") (str "OLD") rfl⟩

/-- C7, as stated, is false on the code: the enumerator cuts each listed
filename at its *first* `'.'` (`fn.split('.')[0]`, line 202), which differs
from "filename minus extension" on a filename with more than one dot:
listing `["a.b.xml"]` yields identifier `"a"`, while the filename minus its
extension is `"a.b"`. -/
theorem c7_counterexample_multi_dot :
    enumerateIdentifiers [str "a.b.xml"] = [str "a"] ∧
    stripExtension (str "a.b.xml") = str "a.b" ∧
    enumerateIdentifiers [str "a.b.xml"] ≠ [stripExtension (str "a.b.xml")] := by
  refine ⟨rfl, rfl, by decide⟩

/-- On a filename containing at most one `'.'`, cutting at the first dot
agrees with removing the extension. -/
theorem strip_first_eq_stripExtension (fn : Str) (h : fn.count '.' ≤ 1) :
    fn.takeWhile (fun c => c != '.') = stripExtension fn := by
  by_cases hm : '.' ∈ fn
  · obtain ⟨s, t, rfl⟩ := List.append_of_mem hm
    have hcnt : s.count '.' + (t.count '.' + 1) ≤ 1 := by
      simpa [List.count_append] using h
    have hs : '.' ∉ s := List.count_eq_zero.mp (by omega)
    have ht : '.' ∉ t := List.count_eq_zero.mp (by omega)
    have hps : ∀ a ∈ s, (a != '.') = true := by
      intro a ha
      simp only [bne_iff_ne, ne_eq]
      rintro rfl; exact hs ha
    have hpt : ∀ a ∈ t.reverse, (a != '.') = true := by
      intro a ha
      simp only [bne_iff_ne, ne_eq]
      rintro rfl; exact ht (List.mem_reverse.mp ha)
    rw [List.takeWhile_append_of_pos hps, stripExtension, if_pos hm,
      List.reverse_append, List.reverse_cons, List.append_assoc,
      List.dropWhile_append_of_pos hpt]
    simp [List.takeWhile_cons, List.dropWhile_cons]
  · rw [stripExtension, if_neg hm, List.takeWhile_eq_self_iff.mpr]
    intro x hx
    simp only [bne_iff_ne, ne_eq]
    rintro rfl; exact hm hx

/-- C7 amended: the enumerator produces, for each listed filename, the
substring before the filename's first `'.'`; on listings whose filenames
contain at most one dot this coincides with stripping each filename's
extension. -/
theorem c7_identifiers_first_dot (listing : List Str)
    (h : singleDotted listing = true) :
    enumerateIdentifiers listing = listing.map stripExtension := by
  unfold enumerateIdentifiers
  apply List.map_congr_left
  intro fn hfn
  have hcnt : fn.count '.' ≤ 1 := by
    have := List.all_eq_true.mp h fn hfn
    simpa using this
  exact strip_first_eq_stripExtension fn hcnt

theorem c7_identifiers_first_dot_witness :
    singleDotted [str "a.xml", str "noext"] = true ∧
    enumerateIdentifiers [str "a.xml", str "noext"] =
      [str "a.xml", str "noext"].map stripExtension :=
  ⟨rfl, c7_identifiers_first_dot [str "a.xml", str "noext"] rfl⟩

/-! ## Path resolution lemmas -/

theorem pathJoin2_endSlash (a b : Str) (ha : a.getLast? = some '/')
    (hb : b.head? ≠ some '/') : pathJoin2 a b = a ++ b := by
  unfold pathJoin2
  rw [if_neg hb, if_pos (Or.inr ha)]

theorem pathJoin2_mid (a b : Str) (ha : a ≠ []) (ha2 : a.getLast? ≠ some '/')
    (hb : b.head? ≠ some '/') : pathJoin2 a b = a ++ (str "/" ++ b) := by
  unfold pathJoin2
  rw [if_neg hb, if_neg (not_or.mpr ⟨ha, ha2⟩)]

/-- Head of `nm.takeWhile (· != '-')` and of `nm ++ ".ext"` when `nm` is a
nonempty string not containing `'/'` and not starting with `'-'`. -/
theorem name_shape (nm : Str) (hn1 : nm ≠ []) (hn2 : '/' ∉ nm)
    (hn3 : nm.head? ≠ some '-') :
    nm.takeWhile (fun c => c != '-') ≠ [] ∧
    (nm.takeWhile (fun c => c != '-')).head? ≠ some '/' ∧
    (nm.takeWhile (fun c => c != '-')).getLast? ≠ some '/' ∧
    nm.head? ≠ some '/' := by
  rcases nm with _ | ⟨c, t⟩
  · exact absurd rfl hn1
  have hc : (c != '-') = true := by
    simp only [bne_iff_ne, ne_eq]
    rintro rfl; exact hn3 rfl
  have hcslash : c ≠ '/' := by rintro rfl; exact hn2 (List.mem_cons_self _ _)
  refine ⟨?_, ?_, ?_, ?_⟩
  · rw [List.takeWhile_cons, if_pos hc]; simp
  · rw [List.takeWhile_cons, if_pos hc]
    simp only [List.head?_cons, ne_eq, Option.some.injEq]
    exact hcslash
  · intro hlast
    have hmem : '/' ∈ (c :: t).takeWhile (fun c => c != '-') :=
      List.mem_of_getLast?_eq_some hlast
    exact hn2 ((List.takeWhile_prefix _).subset hmem)
  · simp only [List.head?_cons, ne_eq, Option.some.injEq]
    exact hcslash

/-- C8 helper, training branch: the image path is
`directory/JPEGImages/training/<prefix>/<nm>.jpg`. -/
theorem image_filename_training (directory nm : Str)
    (hd1 : directory ≠ []) (hd2 : directory.getLast? ≠ some '/')
    (hn1 : nm ≠ []) (hn2 : '/' ∉ nm) (hn3 : nm.head? ≠ some '-') :
    image_filename directory nm (str "training") =
      directory ++ str "/JPEGImages/training/" ++
        nm.takeWhile (fun c => c != '-') ++ str "/" ++ nm ++ str ".jpg" := by
  obtain ⟨hpf1, hpf2, hpf3, hnh⟩ := name_shape nm hn1 hn2 hn3
  have e1 : pathJoin2 directory DIRECTORY_IMAGES =
      directory ++ (str "/" ++ DIRECTORY_IMAGES) :=
    pathJoin2_mid _ _ hd1 hd2 (by decide)
  have e2 : pathJoin2 (directory ++ (str "/" ++ DIRECTORY_IMAGES))
      (str "training") =
      directory ++ (str "/" ++ DIRECTORY_IMAGES) ++ str "training" :=
    pathJoin2_endSlash _ _
      (by rw [List.getLast?_append_of_ne_nil _ (by decide)]; decide) (by decide)
  have e3 : pathJoin2
      (directory ++ (str "/" ++ DIRECTORY_IMAGES) ++ str "training")
      (nm.takeWhile (fun c => c != '-')) =
      directory ++ (str "/" ++ DIRECTORY_IMAGES) ++ str "training" ++
        (str "/" ++ nm.takeWhile (fun c => c != '-')) :=
    pathJoin2_mid _ _
      (List.append_ne_nil_of_right_ne_nil _ (by decide))
      (by rw [List.getLast?_append_of_ne_nil _ (by decide)]; decide) hpf2
  have e4 : pathJoin2
      (directory ++ (str "/" ++ DIRECTORY_IMAGES) ++ str "training" ++
        (str "/" ++ nm.takeWhile (fun c => c != '-')))
      (nm ++ str ".jpg") =
      directory ++ (str "/" ++ DIRECTORY_IMAGES) ++ str "training" ++
        (str "/" ++ nm.takeWhile (fun c => c != '-')) ++
        (str "/" ++ (nm ++ str ".jpg")) :=
    pathJoin2_mid _ _
      (List.append_ne_nil_of_right_ne_nil _
        (List.append_ne_nil_of_left_ne_nil (by decide) _))
      (by
        rw [List.getLast?_append_of_ne_nil _
            (List.append_ne_nil_of_left_ne_nil (by decide : str "/" ≠ []) _),
          List.getLast?_append_of_ne_nil _ hpf1]
        exact hpf3)
      (by rw [List.head?_append_of_ne_nil _ hn1]; exact hnh)
  rw [image_filename, if_pos rfl]
  show pathJoin2 (pathJoin2 (pathJoin2 (pathJoin2 directory DIRECTORY_IMAGES)
    (str "training")) (nm.takeWhile (fun c => c != '-')))
    (nm ++ str ".jpg") = _
  rw [e1, e2, e3, e4]
  simp only [List.append_assoc]
  rfl

/-- C8 helper, non-training branch: the image path is
`directory/JPEGImages/<dataset>/<nm>.jpg`. -/
theorem image_filename_other (directory nm dataset : Str)
    (hd1 : directory ≠ []) (hd2 : directory.getLast? ≠ some '/')
    (hn1 : nm ≠ []) (hn2 : '/' ∉ nm)
    (hs0 : dataset ≠ str "training") (hs1 : dataset ≠ [])
    (hs2 : dataset.head? ≠ some '/') (hs3 : dataset.getLast? ≠ some '/') :
    image_filename directory nm dataset =
      directory ++ str "/JPEGImages/" ++ dataset ++ str "/" ++ nm ++ str ".jpg" := by
  have hnh : nm.head? ≠ some '/' := by
    rcases nm with _ | ⟨c, t⟩
    · exact absurd rfl hn1
    simp only [List.head?_cons, ne_eq, Option.some.injEq]
    rintro rfl; exact hn2 (List.mem_cons_self _ _)
  have e1 : pathJoin2 directory DIRECTORY_IMAGES =
      directory ++ (str "/" ++ DIRECTORY_IMAGES) :=
    pathJoin2_mid _ _ hd1 hd2 (by decide)
  have e2 : pathJoin2 (directory ++ (str "/" ++ DIRECTORY_IMAGES)) dataset =
      directory ++ (str "/" ++ DIRECTORY_IMAGES) ++ dataset :=
    pathJoin2_endSlash _ _
      (by rw [List.getLast?_append_of_ne_nil _ (by decide)]; decide) hs2
  have e3 : pathJoin2 (directory ++ (str "/" ++ DIRECTORY_IMAGES) ++ dataset)
      (nm ++ str ".jpg") =
      directory ++ (str "/" ++ DIRECTORY_IMAGES) ++ dataset ++
        (str "/" ++ (nm ++ str ".jpg")) :=
    pathJoin2_mid _ _
      (List.append_ne_nil_of_right_ne_nil _ hs1)
      (by rw [List.getLast?_append_of_ne_nil _ hs1]; exact hs3)
      (by rw [List.head?_append_of_ne_nil _ hn1]; exact hnh)
  rw [image_filename, if_neg hs0]
  show pathJoin2 (pathJoin2 (pathJoin2 directory DIRECTORY_IMAGES) dataset)
    (nm ++ str ".jpg") = _
  rw [e1, e2, e3]
  simp only [List.append_assoc]
  rfl

/-- C8 helper: the annotation path is
`directory/Annotations/<dataset>/<nm>.xml` for every split. -/
theorem annotation_filename_eq (directory nm dataset : Str)
    (hd1 : directory ≠ []) (hd2 : directory.getLast? ≠ some '/')
    (hn1 : nm ≠ []) (hn2 : '/' ∉ nm) (hs1 : dataset ≠ [])
    (hs2 : dataset.head? ≠ some '/') (hs3 : dataset.getLast? ≠ some '/') :
    annotation_filename directory nm dataset =
      directory ++ str "/Annotations/" ++ dataset ++ str "/" ++ nm ++ str ".xml" := by
  have hnh : nm.head? ≠ some '/' := by
    rcases nm with _ | ⟨c, t⟩
    · exact absurd rfl hn1
    simp only [List.head?_cons, ne_eq, Option.some.injEq]
    rintro rfl; exact hn2 (List.mem_cons_self _ _)
  have e1 : pathJoin2 directory DIRECTORY_ANNOTATIONS =
      directory ++ (str "/" ++ DIRECTORY_ANNOTATIONS) :=
    pathJoin2_mid _ _ hd1 hd2 (by decide)
  have e2 : pathJoin2 (directory ++ (str "/" ++ DIRECTORY_ANNOTATIONS)) dataset =
      directory ++ (str "/" ++ DIRECTORY_ANNOTATIONS) ++ dataset :=
    pathJoin2_endSlash _ _
      (by rw [List.getLast?_append_of_ne_nil _ (by decide)]; decide) hs2
  have e3 : pathJoin2
      (directory ++ (str "/" ++ DIRECTORY_ANNOTATIONS) ++ dataset)
      (nm ++ str ".xml") =
      directory ++ (str "/" ++ DIRECTORY_ANNOTATIONS) ++ dataset ++
        (str "/" ++ (nm ++ str ".xml")) :=
    pathJoin2_mid _ _
      (List.append_ne_nil_of_right_ne_nil _ hs1)
      (by rw [List.getLast?_append_of_ne_nil _ hs1]; exact hs3)
      (by rw [List.head?_append_of_ne_nil _ hn1]; exact hnh)
  rw [annotation_filename]
  show pathJoin2 (pathJoin2 (pathJoin2 directory DIRECTORY_ANNOTATIONS) dataset)
    (nm ++ str ".xml") = _
  rw [e1, e2, e3]
  simp only [List.append_assoc]
  rfl

/-- C8: for well-formed components (nonempty directory not ending in `'/'`,
nonempty identifier containing no `'/'` and not starting with `'-'`,
nonempty split not starting or ending with `'/'`), the loader resolves the
image path to `root/JPEGImages/training/<prefix>/<id>.jpg` for the
"training" split — `<prefix>` being the identifier's substring before its
first `'-'` — and to `root/JPEGImages/<split>/<id>.jpg` otherwise, and the
annotation path to `root/Annotations/<split>/<id>.xml` in both cases. -/
theorem c8_path_resolution (directory nm dataset : Str)
    (hd1 : directory ≠ []) (hd2 : directory.getLast? ≠ some '/')
    (hn1 : nm ≠ []) (hn2 : '/' ∉ nm) (hn3 : nm.head? ≠ some '-')
    (hs1 : dataset ≠ []) (hs2 : dataset.head? ≠ some '/')
    (hs3 : dataset.getLast? ≠ some '/') :
    image_filename directory nm dataset =
      (if dataset = str "training"
       then directory ++ str "/JPEGImages/training/" ++
         nm.takeWhile (fun c => c != '-') ++ str "/" ++ nm ++ str ".jpg"
       else directory ++ str "/JPEGImages/" ++ dataset ++ str "/" ++ nm ++
         str ".jpg") ∧
    annotation_filename directory nm dataset =
      directory ++ str "/Annotations/" ++ dataset ++ str "/" ++ nm ++
        str ".xml" := by
  constructor
  · by_cases hds : dataset = str "training"
    · subst hds
      rw [if_pos rfl]
      exact image_filename_training directory nm hd1 hd2 hn1 hn2 hn3
    · rw [if_neg hds]
      exact image_filename_other directory nm dataset hd1 hd2 hn1 hn2 hds
        hs1 hs2 hs3
  · exact annotation_filename_eq directory nm dataset hd1 hd2 hn1 hn2
      hs1 hs2 hs3

theorem c8_path_resolution_witness :
    image_filename (str "root") (str "ab-cd") (str "validation") =
      str "root/JPEGImages/validation/ab-cd.jpg" ∧
    image_filename (str "root") (str "ab-cd") (str "training") =
      str "root/JPEGImages/training/ab/ab-cd.jpg" ∧
    annotation_filename (str "root") (str "ab-cd") (str "validation") =
      str "root/Annotations/validation/ab-cd.xml" := by
  refine ⟨?_, ?_, ?_⟩
  · have h := (c8_path_resolution (str "root") (str "ab-cd")
      (str "validation") (by decide) (by decide) (by decide) (by decide)
      (by decide) (by decide) (by decide) (by decide)).1
    rw [if_neg (by decide)] at h
    rw [h]; rfl
  · have h := (c8_path_resolution (str "root") (str "ab-cd")
      (str "training") (by decide) (by decide) (by decide) (by decide)
      (by decide) (by decide) (by decide) (by decide)).1
    rw [if_pos rfl] at h
    rw [h]; rfl
  · have h := (c8_path_resolution (str "root") (str "ab-cd")
      (str "validation") (by decide) (by decide) (by decide) (by decide)
      (by decide) (by decide) (by decide) (by decide)).2
    rw [h]; rfl

/-- C10: for a "training"-split identifier containing no `'-'`, the prefix
`name.split('-')[0]` is the whole identifier, so the image path resolves to
`root/JPEGImages/training/<identifier>/<identifier>.jpg` — a directory named
after the full identifier — with no error or fallback. -/
theorem c10_dashless_identifier_path (directory nm : Str)
    (hd1 : directory ≠ []) (hd2 : directory.getLast? ≠ some '/')
    (hn1 : nm ≠ []) (hn2 : '/' ∉ nm) (hdash : '-' ∉ nm) :
    nm.takeWhile (fun c => c != '-') = nm ∧
    image_filename directory nm (str "training") =
      directory ++ str "/JPEGImages/training/" ++ nm ++ str "/" ++ nm ++
        str ".jpg" := by
  have htw : nm.takeWhile (fun c => c != '-') = nm :=
    List.takeWhile_eq_self_iff.mpr (fun x hx => by
      simp only [bne_iff_ne, ne_eq]
      rintro rfl; exact hdash hx)
  have hn3 : nm.head? ≠ some '-' := by
    rcases nm with _ | ⟨c, t⟩
    · exact absurd rfl hn1
    simp only [List.head?_cons, ne_eq, Option.some.injEq]
    rintro rfl; exact hdash (List.mem_cons_self _ _)
  refine ⟨htw, ?_⟩
  have h := image_filename_training directory nm hd1 hd2 hn1 hn2 hn3
  rw [htw] at h
  exact h

theorem c10_dashless_identifier_path_witness :
    image_filename (str "root") (str "abc") (str "training") =
      str "root/JPEGImages/training/abc/abc.jpg" := by
  have h := (c10_dashless_identifier_path (str "root") (str "abc") (by decide)
    (by decide) (by decide) (by decide) (by decide)).2
  rw [h]; rfl

end Bib
